import Mathlib

/-!
Shallow embedding of the mod-geddon-binding-shard AzerothCore module.

The repository contains two variants of the module:
* `src/unnamed/part_000` — the two-phase variant: `PersistDropped_KillPhase`
  at the kill event, `PersistDropped_LootPhase` plus the server-wide
  announcement at the loot-collection event;
* `src/src/mod_talisman_of_binding_shard.cpp` — the single-phase variant:
  `PersistDropped` and `AnnounceDrop` both happen at the kill event.

The embedding models the configuration (`ShardConfig`), the persisted database
row (`GateRecord`, table `mod_geddon_once_drop`), the in-memory cache
(`gAlreadyDropped`, field `alreadyDropped` of `ModuleState`), the loot
container, and the event handlers of both variants.  The `urand(1, 10000)`
draw is passed in as an explicit `roll` parameter; wall-clock time as `now`;
the double `chancePct` is modelled as a rational number.
-/

/-- `ITEM_TALISMAN` from the source: the reward item id. -/
def ITEM_TALISMAN : Nat := 17782

/-- `NPC_BARON_GEDDON` from the source: the default target creature entry. -/
def NPC_BARON_GEDDON : Nat := 12056

/-- `ShardConfig` from the source (`gConf`). -/
structure ShardConfig where
  enable : Bool
  npcEntry : Nat
  chancePct : ℚ
  allowRepeat : Bool
  resetOnStart : Bool
deriving DecidableEq

/-- The single persisted row of table `mod_geddon_once_drop` (key
`geddon_17782_once`): columns `dropped`, `last_drop_time`, `last_killer`. -/
structure GateRecord where
  dropped : Bool
  last_drop_time : Nat
  last_killer : Option String
deriving DecidableEq

/-- The module's mutable state: the persisted row (`none` when the row does
not exist yet) and the in-memory cache `gAlreadyDropped`. -/
structure ModuleState where
  db : Option GateRecord
  alreadyDropped : Bool
deriving DecidableEq

/-- An entry of a loot container; only `itemid` is inspected by the module. -/
structure LootEntry where
  itemid : Nat
deriving DecidableEq

/-- A loot container: `items` and `quest_items` lists, as in `Loot`. -/
structure Loot where
  items : List LootEntry
  quest_items : List LootEntry
deriving DecidableEq

/-- A creature as seen by the kill handler: its entry and its corpse loot. -/
structure Creature where
  entry : Nat
  loot : Loot
deriving DecidableEq

/-- The character replacement of the sanitization loop
`for (char& ch : name) if (ch == quote or double-quote) ch = underscore`. -/
def sanitizeChar (c : Char) : Char :=
  if c = Char.ofNat 39 || c = Char.ofNat 34 then Char.ofNat 95 else c

/-- The name sanitization performed inline by `PersistDropped_KillPhase` and
`PersistDropped_LootPhase`: `if (name.size() > 63) name.resize(63);` then the
quote-replacement loop. -/
def sanitizeName (s : String) : String :=
  String.mk ((s.toList.take 63).map sanitizeChar)

/-- The threshold `need = static_cast<uint32>(gConf.chancePct * 100.0 + 0.5)`
of `RollDrop`; for the arguments reaching it (`0 < chancePct < 100`) the
truncating cast coincides with the integer floor. -/
def rollNeed (c : ℚ) : Nat := (⌊c * 100 + 1 / 2⌋).toNat

/-- `RollDrop` from the source; the `urand(1, scale)` draw is passed in as
`roll`. -/
def RollDrop (conf : ShardConfig) (roll : Nat) : Bool :=
  if conf.chancePct ≤ 0 then false
  else if 100 ≤ conf.chancePct then true
  else decide (roll ≤ rollNeed conf.chancePct)

/-- `EnsureTable` from the source: `CREATE TABLE IF NOT EXISTS` plus
`INSERT IGNORE` of the row `(keyname, 0, 0, NULL)` — creates the row with the
defaults when absent, never overwrites an existing row. -/
def EnsureTable (st : ModuleState) : ModuleState :=
  { st with db := some (st.db.getD ⟨false, 0, none⟩) }

/-- `LoadDroppedState` from the source: read `dropped` of the row into the
cache; when the query returns nothing the cache is set to `false`. -/
def LoadDroppedState (st : ModuleState) : ModuleState :=
  match st.db with
  | some r => { st with alreadyDropped := r.dropped }
  | none => { st with alreadyDropped := false }

/-- `MaybeResetState` from the source: when `resetOnStart` is set, `UPDATE`
the row to `dropped=0, last_drop_time=0, last_killer=NULL` and clear the
cache. -/
def MaybeResetState (conf : ShardConfig) (st : ModuleState) : ModuleState :=
  if !conf.resetOnStart then st
  else { db := st.db.map fun _ => ⟨false, 0, none⟩, alreadyDropped := false }

/-- `PersistDropped_KillPhase` from `src/unnamed/part_000` (identical to
`PersistDropped` of `src/src/mod_talisman_of_binding_shard.cpp`): early
return when `allowRepeat`; otherwise `UPDATE` the row to
`dropped=1, last_drop_time=now, last_killer=` the sanitized name (or `NULL`
when the killer is absent or has an empty name), then store `true` into the
cache. -/
def PersistDropped_KillPhase (conf : ShardConfig) (st : ModuleState)
    (killer : Option String) (now : Nat) : ModuleState :=
  if conf.allowRepeat then st
  else
    let name := killer.getD ""
    if name = "" then
      { db := st.db.map fun _ => ⟨true, now, none⟩, alreadyDropped := true }
    else
      { db := st.db.map fun _ => ⟨true, now, some (sanitizeName name)⟩,
        alreadyDropped := true }

/-- `PersistDropped_LootPhase` from `src/unnamed/part_000`: early return when
`allowRepeat` or when the looter is absent or has an empty name; otherwise
`UPDATE` only `last_drop_time` and `last_killer` (the sanitized name); the
`dropped` column and the cache are not touched. -/
def PersistDropped_LootPhase (conf : ShardConfig) (st : ModuleState)
    (looter : Option String) (now : Nat) : ModuleState :=
  if conf.allowRepeat then st
  else
    let name := looter.getD ""
    if name = "" then st
    else
      { st with
        db := st.db.map fun r => ⟨r.dropped, now, some (sanitizeName name)⟩ }

/-- `LootHasItem` from the source: null guard, then scan `items` and
`quest_items` for `itemid`. -/
def LootHasItem (loot : Option Loot) (itemId : Nat) : Bool :=
  match loot with
  | none => false
  | some l =>
      l.items.any (fun it => it.itemid = itemId) ||
      l.quest_items.any (fun it => it.itemid = itemId)

/-- `AddOneToLoot` from the source: null guard, then
`loot->AddItem(MakeLootStoreItem(itemId))`, appending one entry of the item
(mincount = maxcount = 1, not a quest item, so it goes into `items`). -/
def AddOneToLoot (loot : Option Loot) (itemId : Nat) : Option Loot :=
  match loot with
  | none => none
  | some l => some { l with items := l.items ++ [⟨itemId⟩] }

/-- `GeddonShard_World::OnAfterConfigLoad` from the source: read the raw
options, rewrite `npcEntry == 0` to the default, clamp `chancePct` into
`[0, 100]`, then `EnsureTable`, `MaybeResetState`, `LoadDroppedState`.
The raw option values (results of the `sConfigMgr->GetOption` calls) are the
`raw` argument. -/
def OnAfterConfigLoad (raw : ShardConfig) (st : ModuleState) :
    ShardConfig × ModuleState :=
  let npc := if raw.npcEntry = 0 then NPC_BARON_GEDDON else raw.npcEntry
  let c1 : ℚ := if raw.chancePct < 0 then 0 else raw.chancePct
  let c2 : ℚ := if c1 > 100 then 100 else c1
  let conf : ShardConfig := ⟨raw.enable, npc, c2, raw.allowRepeat, raw.resetOnStart⟩
  let st1 := EnsureTable st
  let st2 := MaybeResetState conf st1
  let st3 := LoadDroppedState st2
  (conf, st3)

/-- Result of one kill-event dispatch: the module state after the handler,
the killed creature's loot after the handler (`none` when no creature), and
whether the handler inserted the reward item / emitted the server-wide
announcement during this dispatch. -/
structure KillResult where
  st : ModuleState
  loot : Option Loot
  inserted : Bool
  announced : Bool
deriving DecidableEq

/-- `GeddonShard_Player::OnPlayerCreatureKill` of the two-phase variant
(`src/unnamed/part_000`): guards for enable / null killer / null creature,
target entry match, the `!allowRepeat && gAlreadyDropped` gate, the
defensive `LootHasItem` check, and the roll; on success it adds the item to
the corpse loot and calls `PersistDropped_KillPhase`.  No announcement is
made by this handler. -/
def OnPlayerCreatureKill (conf : ShardConfig) (st : ModuleState)
    (killer : Option String) (killed : Option Creature)
    (roll now : Nat) : KillResult :=
  match killer, killed with
  | some k, some c =>
    if !conf.enable then ⟨st, some c.loot, false, false⟩
    else if c.entry ≠ conf.npcEntry then ⟨st, some c.loot, false, false⟩
    else if !conf.allowRepeat && st.alreadyDropped then ⟨st, some c.loot, false, false⟩
    else if LootHasItem (some c.loot) ITEM_TALISMAN then ⟨st, some c.loot, false, false⟩
    else if !RollDrop conf roll then ⟨st, some c.loot, false, false⟩
    else ⟨PersistDropped_KillPhase conf st (some k) now,
          AddOneToLoot (some c.loot) ITEM_TALISMAN, true, false⟩
  | _, killed => ⟨st, killed.map (·.loot), false, false⟩

/-- `GeddonShard_Player::OnPlayerCreatureKill` of the single-phase variant
(`src/src/mod_talisman_of_binding_shard.cpp`): the same guards and grant, but
`AnnounceDrop(killer, killed)` is called right after `PersistDropped`, i.e.
the announcement is emitted during the kill event itself. -/
def OnPlayerCreatureKillSingle (conf : ShardConfig) (st : ModuleState)
    (killer : Option String) (killed : Option Creature)
    (roll now : Nat) : KillResult :=
  match killer, killed with
  | some k, some c =>
    if !conf.enable then ⟨st, some c.loot, false, false⟩
    else if c.entry ≠ conf.npcEntry then ⟨st, some c.loot, false, false⟩
    else if !conf.allowRepeat && st.alreadyDropped then ⟨st, some c.loot, false, false⟩
    else if LootHasItem (some c.loot) ITEM_TALISMAN then ⟨st, some c.loot, false, false⟩
    else if !RollDrop conf roll then ⟨st, some c.loot, false, false⟩
    else ⟨PersistDropped_KillPhase conf st (some k) now,
          AddOneToLoot (some c.loot) ITEM_TALISMAN, true, true⟩
  | _, killed => ⟨st, killed.map (·.loot), false, false⟩

/-- Result of one loot-event dispatch: state after, and whether the
server-wide announcement was emitted. -/
structure LootResult where
  st : ModuleState
  announced : Bool
deriving DecidableEq

/-- `GeddonShard_Player::OnPlayerLootItem` of the two-phase variant: guards
for enable / null looter / null item; when the looted item is the talisman it
calls `AnnounceDrop_PlayerLoot` (emitting the server-wide message) and then
`PersistDropped_LootPhase`. -/
def OnPlayerLootItem (conf : ShardConfig) (st : ModuleState)
    (looter : Option String) (item : Option Nat) (now : Nat) : LootResult :=
  match looter, item with
  | some l, some it =>
    if !conf.enable then ⟨st, false⟩
    else if it ≠ ITEM_TALISMAN then ⟨st, false⟩
    else ⟨PersistDropped_LootPhase conf st (some l) now, true⟩
  | _, _ => ⟨st, false⟩

/-- One kill-event dispatch's inputs: killer, killed creature, the `urand`
draw the roll would use, and the wall-clock time. -/
structure KillInput where
  killer : Option String
  killed : Option Creature
  roll : Nat
  now : Nat

/-- Dispatch one kill event. -/
def killStep (conf : ShardConfig) (st : ModuleState) (e : KillInput) : KillResult :=
  OnPlayerCreatureKill conf st e.killer e.killed e.roll e.now

/-- The per-event results of dispatching a sequence of kill events, each
starting from the state the previous event left behind. -/
def killTrace (conf : ShardConfig) : ModuleState → List KillInput → List KillResult
  | _, [] => []
  | st, e :: es =>
      let r := killStep conf st e
      r :: killTrace conf r.st es

/-- How many events of the sequence inserted the reward item. -/
def insertedCount (conf : ShardConfig) (st : ModuleState)
    (es : List KillInput) : Nat :=
  (killTrace conf st es).countP (fun r => r.inserted)

/-- The persisted row exists and its `dropped` flag is set. -/
def droppedTrue (st : ModuleState) : Prop :=
  ∃ r, st.db = some r ∧ r.dropped = true

/-- C2: for every configured chance value, `RollDrop` returns false whenever
the chance is ≤ 0, returns true whenever the chance is ≥ 100, and otherwise,
for a draw in 1..10000, returns true exactly when the draw is at most
`round(chance * 100)`. -/
theorem RollDrop_contract (conf : ShardConfig) (roll : Nat) :
    (conf.chancePct ≤ 0 → RollDrop conf roll = false) ∧
    (100 ≤ conf.chancePct → RollDrop conf roll = true) ∧
    (0 < conf.chancePct → conf.chancePct < 100 → 1 ≤ roll → roll ≤ 10000 →
      (RollDrop conf roll = true ↔ (roll : ℤ) ≤ round (conf.chancePct * 100))) := by
  refine ⟨?_, ?_, ?_⟩
  · intro h
    simp [RollDrop, h]
  · intro h
    have h0 : ¬ conf.chancePct ≤ 0 := by linarith
    simp [RollDrop, h0, h]
  · intro h1 h2 _ _
    have h0 : ¬ conf.chancePct ≤ 0 := not_le.mpr h1
    have h100 : ¬ (100 : ℚ) ≤ conf.chancePct := not_le.mpr h2
    simp only [RollDrop, if_neg h0, if_neg h100, decide_eq_true_eq]
    rw [round_eq]
    unfold rollNeed
    have hnn : (0 : ℤ) ≤ ⌊conf.chancePct * 100 + 1 / 2⌋ := by
      apply Int.floor_nonneg.mpr
      nlinarith
    have ht := Int.toNat_of_nonneg hnn
    omega

/-- Witness for C2: with a 0.5% chance the roll at draw 50 succeeds, via the
non-boundary arm of the contract. -/
theorem RollDrop_contract_witness :
    RollDrop ⟨true, 12056, 1 / 2, false, false⟩ 50 = true := by
  have h := (RollDrop_contract ⟨true, 12056, 1 / 2, false, false⟩ 50).2.2
    (by norm_num) (by norm_num) (by norm_num) (by norm_num)
  rw [h, round_eq]
  norm_num

/-- C10: for a configured chance strictly between 0 and 0.005 percent, the
threshold `trunc(chance * 100 + 0.5)` is 0, and since the draw is at least 1
the roll always returns false. -/
theorem RollDrop_tiny_chance (conf : ShardConfig) (roll : Nat)
    (h1 : 0 < conf.chancePct) (h2 : conf.chancePct < 1 / 200) (h3 : 1 ≤ roll) :
    rollNeed conf.chancePct = 0 ∧ RollDrop conf roll = false := by
  have hneed : rollNeed conf.chancePct = 0 := by
    have hf : ⌊conf.chancePct * 100 + 1 / 2⌋ = 0 := by
      rw [Int.floor_eq_zero_iff]
      constructor
      · nlinarith
      · show conf.chancePct * 100 + 1 / 2 < 1
        nlinarith
    unfold rollNeed
    rw [hf]
    rfl
  refine ⟨hneed, ?_⟩
  have h0 : ¬ conf.chancePct ≤ 0 := not_le.mpr h1
  have h100 : ¬ (100 : ℚ) ≤ conf.chancePct := by
    intro hc
    linarith
  simp only [RollDrop, if_neg h0, if_neg h100, hneed]
  simp
  omega

/-- Witness for C10: at a configured chance of 0.001% the threshold is 0 and
the roll at draw 1 fails. -/
theorem RollDrop_tiny_chance_witness :
    rollNeed ((1 : ℚ) / 1000) = 0 ∧
      RollDrop ⟨true, 12056, 1 / 1000, false, false⟩ 1 = false :=
  RollDrop_tiny_chance ⟨true, 12056, 1 / 1000, false, false⟩ 1
    (by norm_num) (by norm_num) (by norm_num)

/-- A configuration with repeat mode off (chance 100%, defaults otherwise). -/
def cfgNoRepeat : ShardConfig := ⟨true, 12056, 100, false, false⟩

/-- A configuration with repeat mode on (chance 100%, defaults otherwise). -/
def cfgRepeat : ShardConfig := ⟨true, 12056, 100, true, false⟩

/-- A granted state: row `dropped=1, last_drop_time=5, last_killer=Alice`. -/
def stAlice : ModuleState := ⟨some ⟨true, 5, some "Alice"⟩, true⟩

/-- A fresh state: row `dropped=0, last_drop_time=0, last_killer=NULL`. -/
def stFresh : ModuleState := ⟨some ⟨false, 0, none⟩, false⟩

/-- C3 counterexample: with repeat mode active, the kill-phase
grant-recording call at time 10 by actor Bob leaves the record entirely
unchanged — the timestamp stays 5, not the claimed call time 10, and the
actor stays Alice. -/
theorem PersistDropped_KillPhase_repeat_cex :
    PersistDropped_KillPhase cfgRepeat stAlice (some "Bob") 10 = stAlice ∧
    stAlice.db = some ⟨true, 5, some "Alice"⟩ ∧ (5 : Nat) ≠ 10 :=
  ⟨rfl, rfl, by decide⟩

/-- C3 (amended): with repeat mode active, the kill-phase grant-recording
operation is a complete no-op — the persisted granted flag, timestamp and
actor, and the in-memory cache are all left untouched. -/
theorem PersistDropped_KillPhase_repeat_noop (conf : ShardConfig)
    (st : ModuleState) (killer : Option String) (now : Nat)
    (h : conf.allowRepeat = true) :
    PersistDropped_KillPhase conf st killer now = st := by
  simp [PersistDropped_KillPhase, h]

/-- Witness for the amended C3 at a concrete repeat-mode call. -/
theorem PersistDropped_KillPhase_repeat_noop_witness :
    PersistDropped_KillPhase cfgRepeat stFresh (some "Bob") 10 = stFresh :=
  PersistDropped_KillPhase_repeat_noop cfgRepeat stFresh (some "Bob") 10 rfl

/-- C8 counterexample: with repeat mode active, the loot-phase
metadata-recording call at time 10 by actor Bob leaves the record entirely
unchanged — the timestamp stays 5, not the claimed collection time 10. -/
theorem PersistDropped_LootPhase_repeat_cex :
    PersistDropped_LootPhase cfgRepeat stAlice (some "Bob") 10 = stAlice ∧
    stAlice.db = some ⟨true, 5, some "Alice"⟩ ∧ (5 : Nat) ≠ 10 :=
  ⟨rfl, rfl, by decide⟩

/-- C8 (amended): the loot-phase metadata-recording operation is a complete
no-op when repeat mode is active or the looter is absent / has an empty
name; otherwise it updates the persisted timestamp and actor while leaving
the granted flag and the in-memory cache unchanged. -/
theorem PersistDropped_LootPhase_spec (conf : ShardConfig) (st : ModuleState)
    (looter : Option String) (now : Nat) :
    (conf.allowRepeat = true → PersistDropped_LootPhase conf st looter now = st) ∧
    ((looter = none ∨ looter = some "") →
       PersistDropped_LootPhase conf st looter now = st) ∧
    (∀ name, conf.allowRepeat = false → name ≠ "" → looter = some name →
       (PersistDropped_LootPhase conf st looter now).alreadyDropped =
         st.alreadyDropped ∧
       (PersistDropped_LootPhase conf st looter now).db =
         st.db.map fun r => ⟨r.dropped, now, some (sanitizeName name)⟩) := by
  refine ⟨?_, ?_, ?_⟩
  · intro h
    simp [PersistDropped_LootPhase, h]
  · intro h
    rcases h with h | h <;> subst h <;> simp [PersistDropped_LootPhase]
  · intro name hrep hname hl
    subst hl
    simp [PersistDropped_LootPhase, hrep, hname]

/-- Witness for the amended C8: a concrete non-repeat call updates the
metadata fields and keeps the granted flag. -/
theorem PersistDropped_LootPhase_spec_witness :
    (PersistDropped_LootPhase cfgNoRepeat stAlice (some "Bob") 10).alreadyDropped =
      stAlice.alreadyDropped ∧
    (PersistDropped_LootPhase cfgNoRepeat stAlice (some "Bob") 10).db =
      (stAlice.db.map fun r => ⟨r.dropped, 10, some (sanitizeName "Bob")⟩) :=
  (PersistDropped_LootPhase_spec cfgNoRepeat stAlice (some "Bob") 10).2.2
    "Bob" rfl (by decide) rfl

/-- A name consisting of the single control character BEL (code 7). -/
def ctrlName : String := String.mk [Char.ofNat 7]

/-- C9 counterexample: the sanitization replaces only quote characters, so a
control character (BEL, code 7 < 32) passes through unchanged and is written
verbatim into the persisted record's actor field. -/
theorem sanitize_control_cex :
    sanitizeName ctrlName = ctrlName ∧
    (Char.ofNat 7).toNat < 32 ∧
    (PersistDropped_KillPhase cfgNoRepeat stFresh (some ctrlName) 10).db =
      some ⟨true, 10, some ctrlName⟩ :=
  ⟨rfl, by decide, rfl⟩

/-- C9 (amended): every actor name written to the persisted record is
truncated to at most 63 characters and has its single- and double-quote
characters replaced by an underscore; control characters are not
sanitized. -/
theorem actor_name_bounded_quote_free (conf : ShardConfig) (st : ModuleState)
    (name : String) (now : Nat)
    (hrep : conf.allowRepeat = false) (hname : name ≠ "") :
    (PersistDropped_KillPhase conf st (some name) now).db =
      (st.db.map fun _ => ⟨true, now, some (sanitizeName name)⟩) ∧
    (PersistDropped_LootPhase conf st (some name) now).db =
      (st.db.map fun r => ⟨r.dropped, now, some (sanitizeName name)⟩) ∧
    (sanitizeName name).length ≤ 63 ∧
    ∀ ch ∈ (sanitizeName name).toList,
      ch ≠ Char.ofNat 39 ∧ ch ≠ Char.ofNat 34 := by
  refine ⟨?_, ?_, ?_, ?_⟩
  · simp [PersistDropped_KillPhase, hrep, hname]
  · simp [PersistDropped_LootPhase, hrep, hname]
  · have hlen : (sanitizeName name).length =
        ((name.toList.take 63).map sanitizeChar).length := rfl
    rw [hlen, List.length_map, List.length_take]
    exact min_le_left _ _
  · intro ch hch
    have hmem : ch ∈ (name.toList.take 63).map sanitizeChar := hch
    rcases List.mem_map.mp hmem with ⟨c, _, hc⟩
    subst hc
    unfold sanitizeChar
    split
    · exact ⟨by decide, by decide⟩
    · rename_i h
      simp only [Bool.or_eq_true, decide_eq_true_eq, not_or] at h
      exact h

/-- Witness for the amended C9 at a concrete non-repeat kill-phase write. -/
theorem actor_name_bounded_quote_free_witness :
    (sanitizeName "Bob").length ≤ 63 ∧
    (PersistDropped_KillPhase cfgNoRepeat stFresh (some "Bob") 10).db =
      (stFresh.db.map fun _ => ⟨true, 10, some (sanitizeName "Bob")⟩) := by
  have h := actor_name_bounded_quote_free cfgNoRepeat stFresh "Bob" 10 rfl (by decide)
  exact ⟨h.2.2.1, h.1⟩

/-- C4 counterexample: in the single-phase variant
(`src/src/mod_talisman_of_binding_shard.cpp`), a successful grant emits the
server-wide announcement during the kill event itself: at chance 100%, fresh
state, killer Alice and target entry 12056, the kill handler both inserts
the item and announces. -/
theorem announce_at_kill_cex :
    (OnPlayerCreatureKillSingle cfgNoRepeat stFresh (some "Alice")
        (some ⟨12056, ⟨[], []⟩⟩) 1 100).inserted = true ∧
    (OnPlayerCreatureKillSingle cfgNoRepeat stFresh (some "Alice")
        (some ⟨12056, ⟨[], []⟩⟩) 1 100).announced = true := by
  decide

/-- C4 (amended): in the two-phase variant the kill handler never emits the
announcement and the loot handler emits it exactly when the module is
enabled, a looter is present and the looted item is the talisman; in the
single-phase variant the kill handler emits the announcement exactly when it
inserts the item. -/
theorem announce_deferred_to_loot (conf : ShardConfig) (st : ModuleState)
    (killer looter : Option String) (killed : Option Creature)
    (item : Option Nat) (roll now : Nat) :
    (OnPlayerCreatureKill conf st killer killed roll now).announced = false ∧
    ((OnPlayerLootItem conf st looter item now).announced = true ↔
      conf.enable = true ∧ (∃ l, looter = some l) ∧ item = some ITEM_TALISMAN) ∧
    (OnPlayerCreatureKillSingle conf st killer killed roll now).announced =
      (OnPlayerCreatureKillSingle conf st killer killed roll now).inserted := by
  refine ⟨?_, ?_, ?_⟩
  · rcases killer with _ | k <;> rcases killed with _ | c <;>
      simp only [OnPlayerCreatureKill] <;>
      (try rfl) <;> (repeat' split) <;> rfl
  · rcases looter with _ | l <;> rcases item with _ | it
    · simp [OnPlayerLootItem]
    · simp [OnPlayerLootItem]
    · simp [OnPlayerLootItem]
    · by_cases he : conf.enable
      · by_cases hit : it = ITEM_TALISMAN
        · subst hit
          simp [OnPlayerLootItem, he]
        · simp [OnPlayerLootItem, he, hit]
      · simp [OnPlayerLootItem, he]
  · rcases killer with _ | k <;> rcases killed with _ | c <;>
      simp only [OnPlayerCreatureKillSingle] <;>
      (try rfl) <;> (repeat' split) <;> rfl

/-- C6: when the corpse loot already contains the reward item in either the
normal-items or the quest-items list, the kill handler is a complete no-op:
the container, the module state and the flags are unchanged. -/
theorem kill_no_duplicate (conf : ShardConfig) (st : ModuleState)
    (k : String) (c : Creature) (roll now : Nat)
    (hhas : (∃ it ∈ c.loot.items, it.itemid = ITEM_TALISMAN) ∨
            (∃ it ∈ c.loot.quest_items, it.itemid = ITEM_TALISMAN)) :
    OnPlayerCreatureKill conf st (some k) (some c) roll now =
      ⟨st, some c.loot, false, false⟩ := by
  have hloot : LootHasItem (some c.loot) ITEM_TALISMAN = true := by
    unfold LootHasItem
    simp only [Bool.or_eq_true, List.any_eq_true, decide_eq_true_eq]
    rcases hhas with ⟨it, hmem, hid⟩ | ⟨it, hmem, hid⟩
    · exact Or.inl ⟨it, hmem, hid⟩
    · exact Or.inr ⟨it, hmem, hid⟩
  unfold OnPlayerCreatureKill
  simp [hloot]

/-- Witness for C6 at a concrete corpse that already holds item 17782. -/
theorem kill_no_duplicate_witness :
    OnPlayerCreatureKill cfgNoRepeat stFresh (some "Bob")
        (some ⟨12056, ⟨[⟨17782⟩], []⟩⟩) 1 100 =
      ⟨stFresh, some ⟨[⟨17782⟩], []⟩, false, false⟩ :=
  kill_no_duplicate cfgNoRepeat stFresh "Bob" ⟨12056, ⟨[⟨17782⟩], []⟩⟩ 1 100
    (Or.inl ⟨⟨17782⟩, by decide, by decide⟩)

/-- C7: loading the configuration with reset-on-startup enabled, from a
granted state (row present, `dropped=1`, non-zero timestamp), clears the
persisted row to `dropped=0, last_drop_time=0, last_killer=NULL` and the
in-memory cache reads false. -/
theorem reset_on_startup_clears (raw : ShardConfig) (st : ModuleState)
    (r : GateRecord) (hreset : raw.resetOnStart = true)
    (hdb : st.db = some r) (hg : r.dropped = true)
    (ht : r.last_drop_time ≠ 0) :
    (OnAfterConfigLoad raw st).2.db = some ⟨false, 0, none⟩ ∧
    (OnAfterConfigLoad raw st).2.alreadyDropped = false := by
  unfold OnAfterConfigLoad EnsureTable MaybeResetState LoadDroppedState
  simp [hdb, hreset]

/-- Witness for C7: a concrete reload with reset-on-startup from the granted
state `stAlice`. -/
theorem reset_on_startup_clears_witness :
    (OnAfterConfigLoad ⟨true, 12056, 1, false, true⟩ stAlice).2.db =
        some ⟨false, 0, none⟩ ∧
    (OnAfterConfigLoad ⟨true, 12056, 1, false, true⟩ stAlice).2.alreadyDropped =
        false :=
  reset_on_startup_clears ⟨true, 12056, 1, false, true⟩ stAlice
    ⟨true, 5, some "Alice"⟩ rfl rfl rfl (by decide)

/-- The kill-phase persist preserves an already-set granted row. -/
theorem droppedTrue_PersistDropped_KillPhase (conf : ShardConfig)
    (st : ModuleState) (killer : Option String) (now : Nat)
    (h : droppedTrue st) :
    droppedTrue (PersistDropped_KillPhase conf st killer now) := by
  obtain ⟨r, hr, hd⟩ := h
  by_cases hrep : conf.allowRepeat
  · simpa [PersistDropped_KillPhase, hrep] using ⟨r, hr, hd⟩
  · by_cases hn : killer.getD "" = ""
    · exact ⟨⟨true, now, none⟩,
        by simp [PersistDropped_KillPhase, hrep, hn, hr], rfl⟩
    · exact ⟨⟨true, now, some (sanitizeName (killer.getD ""))⟩,
        by simp [PersistDropped_KillPhase, hrep, hn, hr], rfl⟩

/-- The loot-phase persist preserves an already-set granted row. -/
theorem droppedTrue_PersistDropped_LootPhase (conf : ShardConfig)
    (st : ModuleState) (looter : Option String) (now : Nat)
    (h : droppedTrue st) :
    droppedTrue (PersistDropped_LootPhase conf st looter now) := by
  obtain ⟨r, hr, hd⟩ := h
  by_cases hrep : conf.allowRepeat
  · simpa [PersistDropped_LootPhase, hrep] using ⟨r, hr, hd⟩
  · by_cases hn : looter.getD "" = ""
    · simpa [PersistDropped_LootPhase, hrep, hn] using ⟨r, hr, hd⟩
    · exact ⟨⟨r.dropped, now, some (sanitizeName (looter.getD ""))⟩,
        by simp [PersistDropped_LootPhase, hrep, hn, hr], hd⟩

/-- Idempotent initialization preserves an already-set granted row. -/
theorem droppedTrue_EnsureTable (st : ModuleState) (h : droppedTrue st) :
    droppedTrue (EnsureTable st) := by
  obtain ⟨r, hr, hd⟩ := h
  exact ⟨r, by simp [EnsureTable, hr], hd⟩

/-- Reading the cache from the store does not change the row. -/
theorem droppedTrue_LoadDroppedState (st : ModuleState) (h : droppedTrue st) :
    droppedTrue (LoadDroppedState st) := by
  obtain ⟨r, hr, hd⟩ := h
  have hdb : (LoadDroppedState st).db = st.db := by
    unfold LoadDroppedState
    split <;> rfl
  exact ⟨r, by rw [hdb, hr], hd⟩

/-- Without reset-on-startup, `MaybeResetState` leaves the row alone. -/
theorem droppedTrue_MaybeResetState (conf : ShardConfig) (st : ModuleState)
    (hrs : conf.resetOnStart = false) (h : droppedTrue st) :
    droppedTrue (MaybeResetState conf st) := by
  simpa [MaybeResetState, hrs] using h

/-- A config reload without reset-on-startup preserves the granted row. -/
theorem droppedTrue_OnAfterConfigLoad (raw : ShardConfig) (st : ModuleState)
    (hrs : raw.resetOnStart = false) (h : droppedTrue st) :
    droppedTrue (OnAfterConfigLoad raw st).2 := by
  unfold OnAfterConfigLoad
  exact droppedTrue_LoadDroppedState _
    (droppedTrue_MaybeResetState _ _ hrs (droppedTrue_EnsureTable _ h))

/-- The two-phase kill handler preserves an already-set granted row. -/
theorem droppedTrue_OnPlayerCreatureKill (conf : ShardConfig)
    (st : ModuleState) (killer : Option String) (killed : Option Creature)
    (roll now : Nat) (h : droppedTrue st) :
    droppedTrue (OnPlayerCreatureKill conf st killer killed roll now).st := by
  rcases killer with _ | k <;> rcases killed with _ | c
  · exact h
  · exact h
  · exact h
  · unfold OnPlayerCreatureKill
    dsimp only
    repeat' split
    all_goals
      first
        | exact h
        | exact droppedTrue_PersistDropped_KillPhase conf st (some k) now h

/-- The single-phase kill handler preserves an already-set granted row. -/
theorem droppedTrue_OnPlayerCreatureKillSingle (conf : ShardConfig)
    (st : ModuleState) (killer : Option String) (killed : Option Creature)
    (roll now : Nat) (h : droppedTrue st) :
    droppedTrue (OnPlayerCreatureKillSingle conf st killer killed roll now).st := by
  rcases killer with _ | k <;> rcases killed with _ | c
  · exact h
  · exact h
  · exact h
  · unfold OnPlayerCreatureKillSingle
    dsimp only
    repeat' split
    all_goals
      first
        | exact h
        | exact droppedTrue_PersistDropped_KillPhase conf st (some k) now h

/-- The loot handler preserves an already-set granted row. -/
theorem droppedTrue_OnPlayerLootItem (conf : ShardConfig) (st : ModuleState)
    (looter : Option String) (item : Option Nat) (now : Nat)
    (h : droppedTrue st) :
    droppedTrue (OnPlayerLootItem conf st looter item now).st := by
  rcases looter with _ | l <;> rcases item with _ | it
  · exact h
  · exact h
  · exact h
  · unfold OnPlayerLootItem
    dsimp only
    repeat' split
    all_goals
      first
        | exact h
        | exact droppedTrue_PersistDropped_LootPhase conf st (some l) now h

/-- C5: once the persisted granted flag is true, every operation of the
module except the explicit reset (`MaybeResetState` with reset-on-startup
enabled) keeps it true: both kill handlers, the loot handler, both persist
operations, table initialization, the cache load, a reset call with
reset-on-startup disabled, and a config reload with reset-on-startup
disabled. -/
theorem granted_monotone (conf raw : ShardConfig) (st : ModuleState)
    (killer looter : Option String) (killed : Option Creature)
    (item : Option Nat) (roll now : Nat) (h : droppedTrue st) :
    droppedTrue (OnPlayerCreatureKill conf st killer killed roll now).st ∧
    droppedTrue (OnPlayerCreatureKillSingle conf st killer killed roll now).st ∧
    droppedTrue (OnPlayerLootItem conf st looter item now).st ∧
    droppedTrue (PersistDropped_KillPhase conf st killer now) ∧
    droppedTrue (PersistDropped_LootPhase conf st looter now) ∧
    droppedTrue (EnsureTable st) ∧
    droppedTrue (LoadDroppedState st) ∧
    (conf.resetOnStart = false → droppedTrue (MaybeResetState conf st)) ∧
    (raw.resetOnStart = false → droppedTrue (OnAfterConfigLoad raw st).2) :=
  ⟨droppedTrue_OnPlayerCreatureKill conf st killer killed roll now h,
   droppedTrue_OnPlayerCreatureKillSingle conf st killer killed roll now h,
   droppedTrue_OnPlayerLootItem conf st looter item now h,
   droppedTrue_PersistDropped_KillPhase conf st killer now h,
   droppedTrue_PersistDropped_LootPhase conf st looter now h,
   droppedTrue_EnsureTable st h,
   droppedTrue_LoadDroppedState st h,
   fun hrs => droppedTrue_MaybeResetState conf st hrs h,
   fun hrs => droppedTrue_OnAfterConfigLoad raw st hrs h⟩

/-- Witness for C5 at the concrete granted state `stAlice`. -/
theorem granted_monotone_witness :
    droppedTrue (EnsureTable stAlice) ∧
    droppedTrue (PersistDropped_KillPhase cfgNoRepeat stAlice (some "Bob") 10) := by
  have h := granted_monotone cfgNoRepeat cfgNoRepeat stAlice (some "Bob")
    (some "Bob") (some ⟨12056, ⟨[], []⟩⟩) (some 17782) 1 10
    ⟨⟨true, 5, some "Alice"⟩, rfl, rfl⟩
  exact ⟨h.2.2.2.2.2.1, h.2.2.2.1⟩

/-- With repeat mode off, the kill-phase persist sets the cache and the
`dropped` flag of whatever row exists. -/
theorem PersistDropped_KillPhase_sets (conf : ShardConfig) (st : ModuleState)
    (killer : Option String) (now : Nat) (hrep : conf.allowRepeat = false) :
    (PersistDropped_KillPhase conf st killer now).alreadyDropped = true ∧
    ∀ r, (PersistDropped_KillPhase conf st killer now).db = some r →
      r.dropped = true := by
  unfold PersistDropped_KillPhase
  rw [if_neg (by simp [hrep])]
  dsimp only
  split
  · refine ⟨rfl, ?_⟩
    intro r hr
    rcases Option.map_eq_some'.mp hr with ⟨a, _, hfa⟩
    rw [← hfa]
  · refine ⟨rfl, ?_⟩
    intro r hr
    rcases Option.map_eq_some'.mp hr with ⟨a, _, hfa⟩
    rw [← hfa]

/-- With repeat mode off and the cache already set, a kill event is a
no-op. -/
theorem killStep_blocked (conf : ShardConfig) (st : ModuleState)
    (e : KillInput) (hrep : conf.allowRepeat = false)
    (hdrop : st.alreadyDropped = true) :
    (killStep conf st e).st = st ∧ (killStep conf st e).inserted = false := by
  obtain ⟨killer, killed, roll, now⟩ := e
  rcases killer with _ | k <;> rcases killed with _ | c
  · exact ⟨rfl, rfl⟩
  · exact ⟨rfl, rfl⟩
  · exact ⟨rfl, rfl⟩
  · unfold killStep OnPlayerCreatureKill
    dsimp only
    split
    · exact ⟨rfl, rfl⟩
    · split
      · exact ⟨rfl, rfl⟩
      · rw [if_pos (by simp [hrep, hdrop])]
        exact ⟨rfl, rfl⟩

/-- With repeat mode off, a kill event either inserts the item and leaves
the cache set and the row's `dropped` flag set, or changes nothing. -/
theorem killStep_dichotomy (conf : ShardConfig) (st : ModuleState)
    (e : KillInput) (hrep : conf.allowRepeat = false) :
    ((killStep conf st e).inserted = true ∧
     (killStep conf st e).st.alreadyDropped = true ∧
     ∀ r, (killStep conf st e).st.db = some r → r.dropped = true) ∨
    ((killStep conf st e).inserted = false ∧ (killStep conf st e).st = st) := by
  obtain ⟨killer, killed, roll, now⟩ := e
  rcases killer with _ | k <;> rcases killed with _ | c
  · exact Or.inr ⟨rfl, rfl⟩
  · exact Or.inr ⟨rfl, rfl⟩
  · exact Or.inr ⟨rfl, rfl⟩
  · unfold killStep OnPlayerCreatureKill
    dsimp only
    repeat' split
    all_goals
      first
        | exact Or.inr ⟨rfl, rfl⟩
        | exact Or.inl ⟨rfl,
            (PersistDropped_KillPhase_sets conf st (some k) now hrep).1,
            (PersistDropped_KillPhase_sets conf st (some k) now hrep).2⟩

/-- With repeat mode off, from a state whose cache is already set, every
event of a kill sequence leaves the state untouched and inserts nothing. -/
theorem killTrace_frozen (conf : ShardConfig)
    (hrep : conf.allowRepeat = false) :
    ∀ (es : List KillInput) (st : ModuleState), st.alreadyDropped = true →
      ∀ r ∈ killTrace conf st es, r.st = st ∧ r.inserted = false := by
  intro es
  induction es with
  | nil =>
    intro st _ r hr
    simp [killTrace] at hr
  | cons e es ih =>
    intro st hdrop r hr
    simp only [killTrace] at hr
    have hb := killStep_blocked conf st e hrep hdrop
    rcases List.mem_cons.mp hr with h | h
    · subst h
      exact hb
    · rw [hb.1] at h
      exact ih st hdrop r h

/-- With repeat mode off, a kill sequence inserts the reward item at most
once. -/
theorem killTrace_count (conf : ShardConfig)
    (hrep : conf.allowRepeat = false) :
    ∀ (es : List KillInput) (st : ModuleState),
      insertedCount conf st es ≤ 1 := by
  intro es
  induction es with
  | nil =>
    intro st
    simp [insertedCount, killTrace]
  | cons e es ih =>
    intro st
    unfold insertedCount
    simp only [killTrace, List.countP_cons]
    rcases killStep_dichotomy conf st e hrep with ⟨hins, hdrop, _⟩ | ⟨hins, _⟩
    · have hz : (killTrace conf (killStep conf st e).st es).countP
          (fun r => r.inserted) = 0 := by
        rw [List.countP_eq_zero]
        intro r hr
        have hfroz := killTrace_frozen conf hrep es (killStep conf st e).st
          hdrop r hr
        simp [hfroz.2]
      rw [hz]
      simp [hins]
    · have hc := ih (killStep conf st e).st
      unfold insertedCount at hc
      simp only [hins]
      simpa using hc

/-- With repeat mode off, once some event of a kill sequence inserted the
reward item, every state from that event on has the cache set and the row's
`dropped` flag set. -/
theorem killTrace_persist (conf : ShardConfig)
    (hrep : conf.allowRepeat = false) :
    ∀ (es : List KillInput) (st : ModuleState) (i j : Nat)
      (hi : i < (killTrace conf st es).length)
      (hj : j < (killTrace conf st es).length), i ≤ j →
      ((killTrace conf st es).get ⟨i, hi⟩).inserted = true →
      ((killTrace conf st es).get ⟨j, hj⟩).st.alreadyDropped = true ∧
      ∀ r, ((killTrace conf st es).get ⟨j, hj⟩).st.db = some r →
        r.dropped = true := by
  intro es
  induction es with
  | nil =>
    intro st i j hi _ _ _
    simp [killTrace] at hi
  | cons e es ih =>
    intro st i j hi hj hij hins
    have hlen : (killTrace conf st (e :: es)).length =
        (killTrace conf (killStep conf st e).st es).length + 1 := rfl
    cases i with
    | zero =>
      have hins0 : (killStep conf st e).inserted = true := hins
      rcases killStep_dichotomy conf st e hrep with ⟨_, hdrop, hdb⟩ | ⟨hf, _⟩
      swap
      · rw [hf] at hins0
        cases hins0
      cases j with
      | zero => exact ⟨hdrop, hdb⟩
      | succ j' =>
        have hj' : j' < (killTrace conf (killStep conf st e).st es).length := by
          omega
        have hmem : (killTrace conf (killStep conf st e).st es).get ⟨j', hj'⟩ ∈
            killTrace conf (killStep conf st e).st es := List.get_mem _ _ _
        have hfroz := killTrace_frozen conf hrep es (killStep conf st e).st
          hdrop _ hmem
        have heq : (killTrace conf st (e :: es)).get ⟨j' + 1, hj⟩ =
            (killTrace conf (killStep conf st e).st es).get ⟨j', hj'⟩ := rfl
        constructor
        · rw [heq, hfroz.1]
          exact hdrop
        · intro r hr
          rw [heq, hfroz.1] at hr
          exact hdb r hr
    | succ i' =>
      cases j with
      | zero => omega
      | succ j' =>
        have hi' : i' < (killTrace conf (killStep conf st e).st es).length := by
          omega
        have hj' : j' < (killTrace conf (killStep conf st e).st es).length := by
          omega
        have hins' : ((killTrace conf (killStep conf st e).st es).get
            ⟨i', hi'⟩).inserted = true := hins
        exact ih (killStep conf st e).st i' j' hi' hj' (by omega) hins'

/-- C1: with repeat mode off, any sequence of kill events inserts the reward
item into a corpse loot container at most once, and from the first inserting
event on, the cache and the persisted `dropped` flag of the row are true and
stay true for every later event of the sequence. -/
theorem kill_sequence_at_most_once (conf : ShardConfig) (st : ModuleState)
    (es : List KillInput) (hrep : conf.allowRepeat = false) :
    insertedCount conf st es ≤ 1 ∧
    ∀ i j (hi : i < (killTrace conf st es).length)
      (hj : j < (killTrace conf st es).length), i ≤ j →
      ((killTrace conf st es).get ⟨i, hi⟩).inserted = true →
      ((killTrace conf st es).get ⟨j, hj⟩).st.alreadyDropped = true ∧
      ∀ r, ((killTrace conf st es).get ⟨j, hj⟩).st.db = some r →
        r.dropped = true :=
  ⟨killTrace_count conf hrep es st,
   fun i j hi hj hij hins =>
     killTrace_persist conf hrep es st i j hi hj hij hins⟩

/-- A kill event by Alice against a fresh corpse of entry 12056 at a 100%
chance. -/
def evA : KillInput := ⟨some "Alice", some ⟨12056, ⟨[], []⟩⟩, 1, 100⟩

/-- A later kill event by Bob against another fresh corpse of entry 12056. -/
def evB : KillInput := ⟨some "Bob", some ⟨12056, ⟨[], []⟩⟩, 1, 200⟩

/-- Witness for C1: the concrete two-kill sequence from the fresh state
inserts the reward at most once. -/
theorem kill_sequence_at_most_once_witness :
    insertedCount cfgNoRepeat stFresh [evA, evB] ≤ 1 :=
  (kill_sequence_at_most_once cfgNoRepeat stFresh [evA, evB] rfl).1
